import Mathlib

/-!
Verification of the CodeClarity document lifecycle core (gcs_storage/) against
its specification. Python strings are embedded as Lean lists of characters,
the object-store bucket as a list of named blobs, and exceptions as an
explicit error type threaded through Except. Each definition mirrors one
function of the source files Utility.py, MRDocumentationStorage.py and
ReleaseNoteStorage.py; the rename and exists calls of the backing store, whose
outcomes depend on concurrent movers, are abstracted as an oracle.
-/

set_option maxHeartbeats 1000000

namespace CodeClarity

/-- Shorthand: the character list underlying a string literal. -/
def str (s : String) : List Char := s.data

/-- Python str.split(sep) for a one-character separator: splits on every
occurrence, keeping empty segments, and yields one (possibly empty) segment
even for the empty input. -/
def splitOnChar (sep : Char) : List Char → List (List Char)
  | [] => [[]]
  | c :: rest =>
    let r := splitOnChar sep rest
    if c == sep then [] :: r
    else (c :: r.headD []) :: r.tail

/-- Python str.replace(".md", ""): removes every occurrence of ".md",
scanning left to right without overlap (Utility.py line 28). -/
def removeMd : List Char → List Char
  | [] => []
  | [c] => [c]
  | [c1, c2] => [c1, c2]
  | c1 :: c2 :: c3 :: rest =>
    if c1 = '.' ∧ c2 = 'm' ∧ c3 = 'd' then removeMd rest
    else c1 :: removeMd (c2 :: c3 :: rest)

/-- One character of the class [0-9]. -/
def isDigitChar (c : Char) : Bool := '0' ≤ c && c ≤ '9'

/-- One character of the regex class [a-f0-9] (Utility.py line 35). -/
def isHexChar (c : Char) : Bool := ('0' ≤ c && c ≤ '9') || ('a' ≤ c && c ≤ 'f')

/-- The length-40 test combined with the anchored regex match over the
class a-f0-9 of Utility.py line 35: exactly forty lowercase-hex characters. -/
def isSha40 (cs : List Char) : Bool := cs.length == 40 && cs.all isHexChar

/-- All characters are decimal digits. -/
def isDigitList (cs : List Char) : Bool := cs.all isDigitChar

/-- Utility.extract_sha_from_filename: strip any path prefix (keep the part
after the last '/'), delete ".md" occurrences, split on '_' and return the
first segment that is exactly 40 lowercase-hex characters; None otherwise. -/
def extract_sha_from_filename (filename : List Char) : Option (List Char) :=
  let base_filename := removeMd ((splitOnChar '/' filename).getLastD [])
  let parts := splitOnChar '_' base_filename
  parts.find? isSha40

/-- The blob-name encoding of MRDocumentationStorage.py line 32: the
timestamp, commit identity and source branch joined by underscores, with the
.md suffix appended. -/
def encode_blob_name (timestamp commit_sha source_branch : List Char) : List Char :=
  timestamp ++ '_' :: commit_sha ++ '_' :: source_branch ++ str ".md"

/-- Does the character list contain a run of 40 consecutive hex characters? -/
def hasHex40Substring : List Char → Bool
  | [] => false
  | c :: rest => isSha40 ((c :: rest).take 40) || hasHex40Substring rest

/-- A stored object: its full name (including the folder path) and its text. -/
structure Blob where
  name : List Char
  content : List Char
  deriving DecidableEq

/-- The state of one project bucket: the stored objects in listing order. -/
abbrev GcsState := List Blob

/-- bucket.list_blobs(prefix=pre): the stored objects whose names start with
the given path, in listing order. -/
def list_blobs (pre : List Char) (st : GcsState) : List Blob :=
  st.filter (fun b => pre.isPrefixOf b.name)

/-- The exceptions that can propagate out of the storage layer: the typed
errors of exception/exceptions.py, the google.api_core exception classes the
code catches, the runtime errors Python itself raises, and the plain
Exception(...) values the code constructs. -/
inductive PyError where
  | typeError (msg : List Char)
  | unboundLocalError (msg : List Char)
  | genericException (msg : List Char)
  | duplicateDocumentationError (msg : List Char)
  | gcsBucketError (msg : List Char)
  | gcsUploadError (msg : List Char)
  | gcsForbidden (msg : List Char)
  | gcsConflict (msg : List Char)
  | gcsApiCallError (msg : List Char)
  deriving DecidableEq

/-- Python str(e): the message carried by the exception. -/
def errMsg : PyError → List Char
  | .typeError m => m
  | .unboundLocalError m => m
  | .genericException m => m
  | .duplicateDocumentationError m => m
  | .gcsBucketError m => m
  | .gcsUploadError m => m
  | .gcsForbidden m => m
  | .gcsConflict m => m
  | .gcsApiCallError m => m

/-- The body of Utility.get_documents_sha: list "current_release/", decode
each blob name, and collect the non-None identities into a set (modelled as a
duplicate-free list in insertion order). -/
def documentsSha (st : GcsState) : List (List Char) :=
  (list_blobs (str "current_release/") st).foldl
    (fun acc b =>
      match extract_sha_from_filename b.name with
      | some sha => if acc.contains sha then acc else acc ++ [sha]
      | none => acc)
    []

/-- A Python value as seen by the duplicate check of upload_mr_documentation:
either an actual set of identity strings, or the coroutine object produced by
calling an async def without awaiting it. -/
inductive PyValue where
  | strSet (s : List (List Char))
  | coroutine
  deriving DecidableEq

/-- Calling the async function Utility.get_documents_sha. With await the
body runs and yields the identity set; without await Python returns a
coroutine object and the body never runs. -/
def call_get_documents_sha (awaited : Bool) (st : GcsState) : PyValue :=
  if awaited then .strSet (documentsSha st) else .coroutine

/-- The Python membership test `x in v`: set membership on a set, and a
TypeError on a coroutine object, which supports neither __contains__ nor
iteration. -/
def pyIn (x : List Char) (v : PyValue) : Except PyError Bool :=
  match v with
  | .strSet s => .ok (s.contains x)
  | .coroutine => .error (.typeError (str "argument of type coroutine is not iterable"))

/-- A merge-request documentation request (models/gitlab/MRDocumentationRequest). -/
structure MRReq where
  project_id : List Char
  project_name : List Char
  commit_sha : List Char
  source_branch : List Char

/-- The except clauses of upload_mr_documentation (MRDocumentationStorage.py
lines 41-49): DuplicateDocumentationError is re-raised as is, the three
google.api_core classes are wrapped into the typed storage errors, and every
other exception is handled by no clause and propagates unchanged. -/
def handleUploadExcept (bucket_name : List Char) : PyError → PyError
  | .duplicateDocumentationError m => .duplicateDocumentationError m
  | .gcsForbidden _ =>
      .gcsBucketError (str "Permission denied for bucket " ++ bucket_name
        ++ str ". Please check IAM roles.")
  | .gcsConflict _ =>
      .gcsBucketError (str "Bucket name " ++ bucket_name ++ str " is already taken.")
  | .gcsApiCallError _ =>
      .gcsUploadError (str "A cloud storage error occurred during the upload process.")
  | e => e

/-- MRDocumentationStorage.upload_mr_documentation. The bucket get-or-create
succeeds in the model; line 26 calls the async get_documents_sha WITHOUT
await, so the duplicate check on line 27 performs a membership test on a
coroutine object. The returned pair is the bucket state after the call (side
effects persist even when an exception propagates) and the outcome. -/
def upload_mr_documentation (now : List Char) (st : GcsState) (req : MRReq)
    (documentation : List Char) : GcsState × Except PyError (List Char) :=
  let bucket_name := req.project_id ++ '-' :: req.project_name
  let mr_sha := call_get_documents_sha false st
  match pyIn req.commit_sha mr_sha with
  | .error e => (st, .error (handleUploadExcept bucket_name e))
  | .ok true =>
      (st, .error (handleUploadExcept bucket_name
        (.duplicateDocumentationError (str "Documentation for commit "
          ++ req.commit_sha ++ str " already exists."))))
  | .ok false =>
      let blob_name := encode_blob_name now req.commit_sha req.source_branch
      let file_path := str "current_release/" ++ blob_name
      (st ++ [⟨file_path, documentation⟩],
        .ok (str "gs://" ++ bucket_name ++ '/' :: file_path))

/-- ReleaseNoteStorage.estimate_tokens: `len(text) // 4 if text else 0`. -/
def estimate_tokens (text : List Char) : Nat :=
  if text.isEmpty then 0 else text.length / 4

/-- One entry of the `documents` list built by
get_MR_documentation_from_bucket (ReleaseNoteStorage.py lines 82-89). -/
structure DocEntry where
  sha : List Char
  filename : List Char
  content : List Char
  token_count : Nat
  deriving DecidableEq

/-- The last path component of an object name: in Python, split on slash and take the last part. -/
def lastComponent (name : List Char) : List Char :=
  (splitOnChar '/' name).getLastD []

/-- The blob loop of get_MR_documentation_from_bucket: walk the
current_release listing, decode each name, and for each blob whose decoded
identity is truthy and in common_sha download it and record
sha/filename/content/token_count in listing order. -/
def get_documentation_docs (st : GcsState) (common_sha : List (List Char)) :
    List DocEntry :=
  (list_blobs (str "current_release/") st).foldl
    (fun docs blob =>
      match extract_sha_from_filename blob.name with
      | some blob_sha =>
          if common_sha.contains blob_sha then
            docs ++ [⟨blob_sha, lastComponent blob.name, blob.content,
              estimate_tokens blob.content⟩]
          else docs
      | none => docs)
    []

/-- The dictionary returned by format_for_llm. -/
structure Corpus where
  formatted_text : List Char
  total_documents : Nat
  estimated_tokens : Nat
  deriving DecidableEq

/-- One "## Document i: ..." section of the formatted text (the surrounding
f-string indentation whitespace of ReleaseNoteStorage.py lines 176-183 is
condensed). -/
def docSection (i : Nat) (doc : DocEntry) : List Char :=
  str "## Document " ++ Nat.toDigits 10 i ++ str ": " ++ doc.filename
    ++ str "\n**SHA:** " ++ doc.sha ++ str "\n**Content:**\n" ++ doc.content
    ++ str "\n\n---\n\n"

/-- The enumerate(documents, 1) loop building formatted_text. -/
def formattedBody (i : Nat) : List DocEntry → List Char
  | [] => []
  | doc :: rest => docSection i doc ++ formattedBody (i + 1) rest

/-- ReleaseNoteStorage.format_for_llm: empty input yields the empty corpus;
otherwise a header plus one section per document, with the document count and
the sum of the per-document token estimates. -/
def format_for_llm (documents : List DocEntry) : Corpus :=
  if documents.isEmpty then ⟨[], 0, 0⟩
  else
    ⟨str "# Merge Request Documentation for Release\n\n" ++ formattedBody 1 documents,
      documents.length,
      (documents.map DocEntry.token_count).sum⟩

/-- ReleaseNoteStorage.get_MR_documentation composed with
get_MR_documentation_sha_from_bucket (which raises when the bucket holds no
decodable documentation) and get_MR_documentation_from_bucket. The bucket
exists in the model; `mr_in_release` is the release bundle (a set, modelled
by its elements) and intersection is modelled by membership filtering. -/
def get_MR_documentation (st : GcsState) (mr_in_release : List (List Char))
    (release_tag bucket_name : List Char) : Except PyError Corpus :=
  let mr_in_gcs := documentsSha st
  if mr_in_gcs.isEmpty then
    .error (.genericException (str "No MR documentation found in bucket " ++ bucket_name))
  else
    let common_sha := mr_in_release.filter (fun s => mr_in_gcs.contains s)
    if common_sha.isEmpty then
      .error (.genericException (str "No documentation found for release " ++ release_tag))
    else
      .ok (format_for_llm (get_documentation_docs st common_sha))

/-- The outcome the backing store reports for one
bucket.rename_blob(source, destination) call. -/
inductive RenameOutcome where
  | ok (newName : List Char)
  | notFound
  | otherError (msg : List Char)
  deriving DecidableEq

/-- The backing-store oracle for the relocation step: the outcome of each
rename, the destination-existence recheck used in the NotFound handler, and
an optional failure of the bucket.list_blobs call made by
the relocation block of upload_release_note. -/
structure MoveEnv where
  rename : List Char → List Char → RenameOutcome
  destExists : List Char → Bool
  listFault : Option (List Char)

/-- The failure reason recorded when a source blob has vanished and its
destination does not exist either (ReleaseNoteStorage.py line 253). -/
def msgSourceNotFound : List Char := str "Source blob not found."

/-- Python substring containment `pat in s`. -/
def containsSeq (pat : List Char) : List Char → Bool
  | [] => pat.isEmpty
  | c :: rest => pat.isPrefixOf (c :: rest) || containsSeq pat rest

/-- The pre-filter of ReleaseNoteStorage.py line 228:
`any(sha in source_blob_name for sha in shas_to_move)`. The source first
converts mr_sha to a set, which does not change what `any` observes. -/
def passesShaFilter (shas : List (List Char)) (name : List Char) : Bool :=
  shas.any (fun sha => containsSeq sha name)

/-- The folder normalization of ReleaseNoteStorage.py lines 217-218:
append '/' when the folder is truthy and does not already end in '/'. -/
def normalizeFolder (folder : List Char) : List Char :=
  if !folder.isEmpty && !(folder.getLastD ' ' == '/') then folder ++ ['/'] else folder

/-- The two result dictionaries of move_mr_documentation, as insertion-order
association lists: the returned moved_blobs and the logged failed_moves. -/
structure MoveResult where
  moved : List (List Char × List Char)
  failed : List (List Char × List Char)
  deriving DecidableEq

/-- The for-loop of move_mr_documentation (ReleaseNoteStorage.py lines
226-258): skip candidates matching no requested identity; on a successful
rename record source -> new name; on NotFound record source -> destination
when the destination already exists, and otherwise record a failure entry;
on any other exception record its message as a failure entry. Every branch
continues with the remaining candidates. -/
def moveLoop (env : MoveEnv) (folder : List Char) (shas : List (List Char))
    (moved failed : List (List Char × List Char)) :
    List (List Char) → MoveResult
  | [] => ⟨moved, failed⟩
  | src :: rest =>
    if !passesShaFilter shas src then moveLoop env folder shas moved failed rest
    else
      let dst := folder ++ lastComponent src
      match env.rename src dst with
      | .ok newName => moveLoop env folder shas (moved ++ [(src, newName)]) failed rest
      | .notFound =>
          if env.destExists dst then
            moveLoop env folder shas (moved ++ [(src, dst)]) failed rest
          else
            moveLoop env folder shas moved (failed ++ [(src, msgSourceNotFound)]) rest
      | .otherError msg => moveLoop env folder shas moved (failed ++ [(src, msg)]) rest

/-- ReleaseNoteStorage.move_mr_documentation: normalize the destination
folder, then run the per-candidate loop with empty dictionaries. The Python
function returns moved_blobs; failed_moves is kept alongside as it is what
the summary log reports. -/
def move_mr_documentation (env : MoveEnv) (blob_names : List (List Char))
    (destination_folder : List Char) (mr_sha : List (List Char)) : MoveResult :=
  moveLoop env (normalizeFolder destination_folder) mr_sha [] [] blob_names

/-- The destination name a candidate is renamed to. -/
def renameDest (destination_folder src : List Char) : List Char :=
  normalizeFolder destination_folder ++ lastComponent src

/-- A release-note request (models/gitlab/ReleaseNoteRequest). -/
structure ReleaseReq where
  project_id : List Char
  project_name : List Char
  release_tag : List Char

/-- The ends-with-slash test of ReleaseNoteStorage.py line 137. -/
def endsWithSlash (name : List Char) : Bool :=
  !name.isEmpty && name.getLastD ' ' == '/'

/-- The `blob_names` list of ReleaseNoteStorage.py lines 134-137: names in
the current_release listing that are not folder placeholders. -/
def currentReleaseNames (st : GcsState) : List (List Char) :=
  ((list_blobs (str "current_release/") st).map Blob.name).filter
    (fun n => !endsWithSlash n)

/-- The object path of the uploaded release note
(ReleaseNoteStorage.py lines 114-116). -/
def releaseNotePath (now : List Char) (req : ReleaseReq) : List Char :=
  str "releases/" ++ req.release_tag ++ '/' ::
    (now ++ str "_release-note_" ++ req.release_tag ++ str ".md")

/-- The message of the Python UnboundLocalError for destination_folder. -/
def unboundMsg : List Char :=
  str "local variable destination_folder referenced before assignment"

/-- The wrapper raised by the except clause of the relocation block
(ReleaseNoteStorage.py line 154). -/
def moveFailMsg (inner : List Char) : List Char :=
  str "Failed to move MR documentation: " ++ inner

/-- The wrapper raised by the outermost except clause of upload_release_note
(ReleaseNoteStorage.py line 164). -/
def outerFailMsg (tag inner : List Char) : List Char :=
  str "Failed to upload release note for " ++ tag ++ str ": " ++ inner

/-- The relocation block of upload_release_note (ReleaseNoteStorage.py lines
131-155), before its except clause. The listing call may fail (a backing
store error from bucket.list_blobs, per the oracle). With an empty
blob_names list the code assigns moved_folders = {} but, because the call on
line 145 sits at the indentation level of the if statement, it still invokes
move_mr_documentation with destination_folder, a local that only the else
branch assigns: evaluating it raises UnboundLocalError. With a non-empty
list the destination folder is assigned and the batch move runs. -/
def relocationBlock (env : MoveEnv) (st1 : GcsState) (tag : List Char)
    (mr_sha : List (List Char)) : Except PyError MoveResult :=
  match env.listFault with
  | some m => .error (.gcsApiCallError m)
  | none =>
    let blob_names := currentReleaseNames st1
    if blob_names.isEmpty then .error (.unboundLocalError unboundMsg)
    else
      .ok (move_mr_documentation env blob_names
        (str "releases/" ++ tag ++ str "/mr_docs/") mr_sha)

/-- ReleaseNoteStorage.upload_release_note. The bucket check and the path
generation succeed in the model; the release note is uploaded first, then
the relocation block runs. Any exception the block raises is wrapped by the
own except clause of the block (which re-raises despite its comment) and then by
the outermost except clause, so the function raises instead of returning the
URI; only a fault-free relocation block reaches the return statement. The
first component is the bucket state after the call: the uploaded release
note persists even when the function raises. -/
def upload_release_note (env : MoveEnv) (now : List Char) (st : GcsState)
    (req : ReleaseReq) (release_note : List Char) (mr_sha : List (List Char)) :
    GcsState × Except PyError (List Char) :=
  let bucket_name := req.project_id ++ '-' :: req.project_name
  let file_path := releaseNotePath now req
  let st1 := st ++ [⟨file_path, release_note⟩]
  match relocationBlock env st1 req.release_tag mr_sha with
  | .error e =>
      (st1, .error (.genericException
        (outerFailMsg req.release_tag (moveFailMsg (errMsg e)))))
  | .ok _ => (st1, .ok (str "gs://" ++ bucket_name ++ '/' :: file_path))

theorem splitOnChar_no_sep {sep : Char} {cs : List Char} (h : sep ∉ cs) :
    splitOnChar sep cs = [cs] := by
  induction cs with
  | nil => rfl
  | cons c rest ih =>
    have hc : (c == sep) = false := by
      simp only [beq_eq_false_iff_ne]
      exact fun hcs => h (hcs ▸ List.mem_cons_self c rest)
    have hrest : sep ∉ rest := fun hm => h (List.mem_cons_of_mem c hm)
    simp [splitOnChar, hc, ih hrest]

theorem splitOnChar_append_sep {sep : Char} {xs ys : List Char} (h : sep ∉ xs) :
    splitOnChar sep (xs ++ sep :: ys) = xs :: splitOnChar sep ys := by
  induction xs with
  | nil => simp [splitOnChar]
  | cons x xs' ih =>
    have hx : (x == sep) = false := by
      simp only [beq_eq_false_iff_ne]
      exact fun hxs => h (hxs ▸ List.mem_cons_self x xs')
    have hxs' : sep ∉ xs' := fun hm => h (List.mem_cons_of_mem x hm)
    simp [splitOnChar, hx, ih hxs']

theorem removeMd_cons_ne_dot {x : Char} (l : List Char) (hx : x ≠ '.') :
    removeMd (x :: l) = x :: removeMd l := by
  match l with
  | [] => rfl
  | [c] => rfl
  | c1 :: c2 :: rest =>
    rw [removeMd]
    rw [if_neg]
    intro hcon
    exact hx hcon.1

theorem removeMd_append_no_dot {xs ys : List Char} (h : '.' ∉ xs) :
    removeMd (xs ++ ys) = xs ++ removeMd ys := by
  induction xs with
  | nil => rfl
  | cons x xs' ih =>
    have hx : x ≠ '.' := fun hcx => h (hcx ▸ List.mem_cons_self x xs')
    have hxs' : '.' ∉ xs' := fun hm => h (List.mem_cons_of_mem x hm)
    rw [List.cons_append, removeMd_cons_ne_dot _ hx, ih hxs', List.cons_append]

theorem digit_not_special {x : Char} (h : isDigitChar x = true) :
    x ≠ '_' ∧ x ≠ '/' ∧ x ≠ '.' := by
  refine ⟨?_, ?_, ?_⟩ <;> rintro rfl <;> revert h <;> decide

theorem hex_not_special {x : Char} (h : isHexChar x = true) :
    x ≠ '_' ∧ x ≠ '/' ∧ x ≠ '.' := by
  refine ⟨?_, ?_, ?_⟩ <;> rintro rfl <;> revert h <;> decide

theorem sha40_chars {c : List Char} (h : isSha40 c = true) :
    ∀ x ∈ c, isHexChar x = true := by
  have := (Bool.and_eq_true _ _).mp h
  exact fun x hx => List.all_eq_true.mp this.2 x hx

/-- C6 (amended): for every valid commit identity c (forty lowercase hex
characters), every timestamp in YYYYMMDD_HHMMSS format, and every branch
name b containing no 40-hex-character substring, no underscore-delimited
40-character hex segment, and no slash character, decoding the encoded
object name timestamp_c_b.md returns exactly c. -/
theorem codec_roundtrip (d hms c b : List Char)
    (hd8 : d.length = 8) (hdd : isDigitList d = true)
    (hh6 : hms.length = 6) (hhd : isDigitList hms = true)
    (hc : isSha40 c = true)
    (hslash : '/' ∉ b)
    (hno40 : hasHex40Substring b = false)
    (hseg : (splitOnChar '_' b).all (fun p => !isSha40 p) = true) :
    extract_sha_from_filename (encode_blob_name (d ++ '_' :: hms) c b) = some c := by
  have hdchars : ∀ x ∈ d, isDigitChar x = true := List.all_eq_true.mp hdd
  have hhchars : ∀ x ∈ hms, isDigitChar x = true := List.all_eq_true.mp hhd
  have hcchars : ∀ x ∈ c, isHexChar x = true := sha40_chars hc
  have hslashd : '/' ∉ d := fun h1 => absurd (hdchars _ h1) (by decide)
  have hslashh : '/' ∉ hms := fun h1 => absurd (hhchars _ h1) (by decide)
  have hslashc : '/' ∉ c := fun h1 => absurd (hcchars _ h1) (by decide)
  have hdotd : '.' ∉ d := fun h1 => absurd (hdchars _ h1) (by decide)
  have hdoth : '.' ∉ hms := fun h1 => absurd (hhchars _ h1) (by decide)
  have hdotc : '.' ∉ c := fun h1 => absurd (hcchars _ h1) (by decide)
  have hud : '_' ∉ d := fun h1 => absurd (hdchars _ h1) (by decide)
  have huh : '_' ∉ hms := fun h1 => absurd (hhchars _ h1) (by decide)
  have huc : '_' ∉ c := fun h1 => absurd (hcchars _ h1) (by decide)
  have hname : encode_blob_name (d ++ '_' :: hms) c b
      = (d ++ '_' :: hms ++ '_' :: c ++ ['_']) ++ (b ++ str ".md") := by
    simp [encode_blob_name, List.append_assoc]
  have happ : ∀ {x : Char} {l1 l2 : List Char}, x ∉ l1 → x ∉ l2 → x ∉ l1 ++ l2 := by
    intro x l1 l2 h1 h2 hm
    rcases List.mem_append.mp hm with h | h
    · exact h1 h
    · exact h2 h
  have hcons : ∀ {x y : Char} {l : List Char}, x ≠ y → x ∉ l → x ∉ y :: l := by
    intro x y l h1 h2 hm
    rcases List.mem_cons.mp hm with h | h
    · exact h1 h
    · exact h2 h
  have hnpre : '/' ∉ d ++ '_' :: hms ++ '_' :: c ++ ['_'] :=
    happ (happ (happ hslashd (hcons (by decide) hslashh))
      (hcons (by decide) hslashc)) (by decide)
  have hns : '/' ∉ (d ++ '_' :: hms ++ '_' :: c ++ ['_']) ++ (b ++ str ".md") :=
    happ hnpre (happ hslash (by decide))
  have hnd : '.' ∉ d ++ '_' :: hms ++ '_' :: c ++ ['_'] :=
    happ (happ (happ hdotd (hcons (by decide) hdoth))
      (hcons (by decide) hdotc)) (by decide)
  simp only [extract_sha_from_filename, hname]
  rw [splitOnChar_no_sep hns]
  have hlast : ((([(d ++ '_' :: hms ++ '_' :: c ++ ['_']) ++ (b ++ str ".md")] :
      List (List Char))).getLastD []) = (d ++ '_' :: hms ++ '_' :: c ++ ['_']) ++ (b ++ str ".md") := rfl
  rw [hlast]
  rw [removeMd_append_no_dot hnd]
  have hassoc : (d ++ '_' :: hms ++ '_' :: c ++ ['_']) ++ removeMd (b ++ str ".md")
      = d ++ '_' :: (hms ++ '_' :: (c ++ '_' :: removeMd (b ++ str ".md"))) := by
    simp [List.append_assoc]
  rw [hassoc, splitOnChar_append_sep hud, splitOnChar_append_sep huh,
    splitOnChar_append_sep huc]
  rw [List.find?_cons_of_neg _ (by simp [isSha40, hd8]),
    List.find?_cons_of_neg _ (by simp [isSha40, hh6]),
    List.find?_cons_of_pos _ hc]

/-- C6 counterexample: the branch name feature/x contains no 40-hex
substring, no underscore at all (hence no competing underscore-delimited
40-hex segment), the timestamp is in YYYYMMDD_HHMMSS format and the commit
identity is a valid 40-hex string, yet decoding the encoded name returns
None rather than the identity, because decode keeps only the part of the
name after the last slash. -/
theorem codec_roundtrip_counterexample :
    isSha40 (str "aaaaaaaaaaaaaaaaaaaaaaaaaaaaaaaaaaaaaaaa") = true
    ∧ (str "20250101").length = 8 ∧ isDigitList (str "20250101") = true
    ∧ (str "120000").length = 6 ∧ isDigitList (str "120000") = true
    ∧ hasHex40Substring (str "feature/x") = false
    ∧ '_' ∉ str "feature/x"
    ∧ (splitOnChar '_' (str "feature/x")).all (fun p => !isSha40 p) = true
    ∧ extract_sha_from_filename
        (encode_blob_name (str "20250101" ++ '_' :: str "120000")
          (str "aaaaaaaaaaaaaaaaaaaaaaaaaaaaaaaaaaaaaaaa") (str "feature/x"))
        = none := by decide

/-- C6 witness: the round-trip theorem applied to a concrete timestamp,
commit identity and slash-free branch name. -/
theorem codec_roundtrip_witness :
    extract_sha_from_filename
      (encode_blob_name (str "20250101" ++ '_' :: str "120000")
        (str "aaaaaaaaaaaaaaaaaaaaaaaaaaaaaaaaaaaaaaaa") (str "feature-x"))
      = some (str "aaaaaaaaaaaaaaaaaaaaaaaaaaaaaaaaaaaaaaaa") :=
  codec_roundtrip (str "20250101") (str "120000")
    (str "aaaaaaaaaaaaaaaaaaaaaaaaaaaaaaaaaaaaaaaa") (str "feature-x")
    (by decide) (by decide) (by decide) (by decide) (by decide) (by decide)
    (by decide) (by decide)

/-- C8 (amended): decode is a total function whose every non-null result is
a valid 40-hex identity; it returns null for the empty string and for every
name none of whose underscore-delimited segments (after keeping the part
after the last slash and deleting ".md" occurrences) is a 40-hex string. The
.md suffix is not required: a suffix-less name can still decode. -/
theorem decode_robustness (s : List Char) :
    (∀ p, extract_sha_from_filename s = some p → isSha40 p = true)
    ∧ (s = [] → extract_sha_from_filename s = none)
    ∧ ((splitOnChar '_' (removeMd ((splitOnChar '/' s).getLastD []))).all
        (fun p => !isSha40 p) = true → extract_sha_from_filename s = none) := by
  refine ⟨?_, ?_, ?_⟩
  · intro p hp
    exact List.find?_some hp
  · rintro rfl
    rfl
  · intro h
    have h2 := List.all_eq_true.mp h
    simp only [extract_sha_from_filename]
    rw [List.find?_eq_none]
    intro x hx
    have h3 := h2 x hx
    simp only [Bool.not_eq_true'] at h3
    simp [h3]

/-- C8 counterexample: a bare 40-hex name with no dot anywhere (so certainly
no .md suffix) decodes to itself rather than to null, refuting the clause
that decode returns null for names lacking the .md suffix. -/
theorem decode_mdless_counterexample :
    ('.' ∉ str "aaaaaaaaaaaaaaaaaaaaaaaaaaaaaaaaaaaaaaaa")
    ∧ extract_sha_from_filename (str "aaaaaaaaaaaaaaaaaaaaaaaaaaaaaaaaaaaaaaaa")
        = some (str "aaaaaaaaaaaaaaaaaaaaaaaaaaaaaaaaaaaaaaaa") := by
  refine ⟨by decide, by decide⟩

/-- C8 witness: the robustness theorem applied at the empty string. -/
theorem decode_robustness_witness :
    extract_sha_from_filename [] = none :=
  (decode_robustness []).2.1 rfl

/-- The moved_blobs entry the relocation loop records for one candidate:
none when the candidate is filtered out, fails hard, or is missing with an
absent destination. -/
def movedEntry (env : MoveEnv) (folder : List Char) (shas : List (List Char))
    (src : List Char) : Option (List Char × List Char) :=
  if !passesShaFilter shas src then none
  else
    match env.rename src (folder ++ lastComponent src) with
    | .ok newName => some (src, newName)
    | .notFound =>
        if env.destExists (folder ++ lastComponent src) then
          some (src, folder ++ lastComponent src)
        else none
    | .otherError _ => none

/-- The failed_moves entry the relocation loop records for one candidate. -/
def failedEntry (env : MoveEnv) (folder : List Char) (shas : List (List Char))
    (src : List Char) : Option (List Char × List Char) :=
  if !passesShaFilter shas src then none
  else
    match env.rename src (folder ++ lastComponent src) with
    | .ok _ => none
    | .notFound =>
        if env.destExists (folder ++ lastComponent src) then none
        else some (src, msgSourceNotFound)
    | .otherError msg => some (src, msg)

theorem moveLoop_eq (env : MoveEnv) (folder : List Char) (shas : List (List Char))
    (moved failed : List (List Char × List Char)) (blobs : List (List Char)) :
    moveLoop env folder shas moved failed blobs
      = ⟨moved ++ blobs.filterMap (movedEntry env folder shas),
         failed ++ blobs.filterMap (failedEntry env folder shas)⟩ := by
  induction blobs generalizing moved failed with
  | nil => simp [moveLoop]
  | cons src rest ih =>
    by_cases hf : passesShaFilter shas src
    · cases hr : env.rename src (folder ++ lastComponent src) with
      | ok newName =>
          simp [moveLoop, movedEntry, failedEntry, hf, hr, ih, List.filterMap_cons]
      | notFound =>
          by_cases hd : env.destExists (folder ++ lastComponent src)
          · simp [moveLoop, movedEntry, failedEntry, hf, hr, hd, ih, List.filterMap_cons]
          · simp [moveLoop, movedEntry, failedEntry, hf, hr, hd, ih, List.filterMap_cons]
      | otherError msg =>
          simp [moveLoop, movedEntry, failedEntry, hf, hr, ih, List.filterMap_cons]
    · simp [moveLoop, movedEntry, failedEntry, hf, ih, List.filterMap_cons]

theorem move_mr_documentation_eq (env : MoveEnv) (blob_names : List (List Char))
    (destination_folder : List Char) (mr_sha : List (List Char)) :
    move_mr_documentation env blob_names destination_folder mr_sha
      = ⟨blob_names.filterMap (movedEntry env (normalizeFolder destination_folder) mr_sha),
         blob_names.filterMap (failedEntry env (normalizeFolder destination_folder) mr_sha)⟩ := by
  simpa [move_mr_documentation] using
    moveLoop_eq env (normalizeFolder destination_folder) mr_sha [] [] blob_names

theorem movedEntry_fst (env : MoveEnv) (folder : List Char)
    (shas : List (List Char)) (src : List Char) (p : List Char × List Char)
    (h : movedEntry env folder shas src = some p) : p.1 = src := by
  unfold movedEntry at h
  by_cases hf : passesShaFilter shas src
  · simp only [hf, Bool.not_true, Bool.false_eq_true, if_false] at h
    cases hr : env.rename src (folder ++ lastComponent src) <;> rw [hr] at h
    · cases h
      rfl
    · by_cases hd : env.destExists (folder ++ lastComponent src)
      · simp only [hd, if_true] at h
        cases h
        rfl
      · simp [hd] at h
    · cases h
  · simp [hf] at h

/-- C4 (amended): when a single rename fails with a backing-store error
other than source-not-found, move_mr_documentation records the error message
as the failure entry of that candidate, records no success for it, and still
processes every other candidate, returning the per-candidate success map
(partial results) instead of raising; the code defines no RelocationError. -/
theorem move_hard_failure_recorded_and_continues (env : MoveEnv)
    (blob_names : List (List Char)) (destination_folder : List Char)
    (mr_sha : List (List Char)) (src msg : List Char)
    (hmem : src ∈ blob_names) (hfil : passesShaFilter mr_sha src = true)
    (herr : env.rename src (renameDest destination_folder src) = .otherError msg) :
    (src, msg) ∈ (move_mr_documentation env blob_names destination_folder mr_sha).failed
    ∧ (∀ p ∈ (move_mr_documentation env blob_names destination_folder mr_sha).moved,
        p.1 ≠ src)
    ∧ (move_mr_documentation env blob_names destination_folder mr_sha).moved
        = blob_names.filterMap
            (movedEntry env (normalizeFolder destination_folder) mr_sha) := by
  unfold renameDest at herr
  rw [move_mr_documentation_eq]
  refine ⟨?_, ?_, rfl⟩
  · rw [List.mem_filterMap]
    refine ⟨src, hmem, ?_⟩
    unfold failedEntry
    rw [hfil, herr]
    rfl
  · intro p hp hps
    rw [List.mem_filterMap] at hp
    obtain ⟨a, ha, hpa⟩ := hp
    have hfst := movedEntry_fst _ _ _ _ _ hpa
    rw [hps] at hfst
    rw [← hfst] at hpa
    unfold movedEntry at hpa
    rw [hfil, herr] at hpa
    simp at hpa

theorem filterMap_movedEntry_all_moved (env : MoveEnv) (folder : List Char)
    (mr_sha : List (List Char)) (blobs : List (List Char))
    (hall : ∀ src ∈ blobs, passesShaFilter mr_sha src = true →
        env.rename src (folder ++ lastComponent src) = .notFound
        ∧ env.destExists (folder ++ lastComponent src) = true) :
    blobs.filterMap (movedEntry env folder mr_sha)
      = (blobs.filter (passesShaFilter mr_sha)).map
          (fun s => (s, folder ++ lastComponent s)) := by
  induction blobs with
  | nil => rfl
  | cons x rest ih =>
    have hrest : ∀ src ∈ rest, passesShaFilter mr_sha src = true →
        env.rename src (folder ++ lastComponent src) = .notFound
        ∧ env.destExists (folder ++ lastComponent src) = true :=
      fun src hm => hall src (List.mem_cons_of_mem x hm)
    rw [List.filterMap_cons, List.filter_cons]
    by_cases hf : passesShaFilter mr_sha x
    · have hx2 := hall x (List.mem_cons_self x rest) hf
      have hme : movedEntry env folder mr_sha x
          = some (x, folder ++ lastComponent x) := by
        unfold movedEntry
        rw [hf, hx2.1]
        simp [hx2.2]
      rw [hme, ih hrest]
      simp [hf]
    · have hme : movedEntry env folder mr_sha x = none := by
        unfold movedEntry
        simp [hf]
      rw [hme, ih hrest]
      simp [hf]

/-- C7: when the rename of a candidate reports source-not-found, the loop records
it as a success mapped to the destination name exactly when the destination
already exists, and otherwise records it only as a failure entry while the
remaining candidates are still processed; consequently a relocate call in
which every matching candidate is already moved (source gone, destination
present) reports every matching item as succeeded and none as failed. -/
theorem relocation_idempotence_and_source_missing (env : MoveEnv)
    (blob_names : List (List Char)) (destination_folder : List Char)
    (mr_sha : List (List Char)) :
    (∀ src ∈ blob_names, passesShaFilter mr_sha src = true →
        env.rename src (renameDest destination_folder src) = .notFound →
        env.destExists (renameDest destination_folder src) = true →
        (src, renameDest destination_folder src)
          ∈ (move_mr_documentation env blob_names destination_folder mr_sha).moved)
    ∧ (∀ src ∈ blob_names, passesShaFilter mr_sha src = true →
        env.rename src (renameDest destination_folder src) = .notFound →
        env.destExists (renameDest destination_folder src) = false →
        (src, msgSourceNotFound)
          ∈ (move_mr_documentation env blob_names destination_folder mr_sha).failed
        ∧ ∀ p ∈ (move_mr_documentation env blob_names destination_folder mr_sha).moved,
            p.1 ≠ src)
    ∧ ((∀ src ∈ blob_names, passesShaFilter mr_sha src = true →
          env.rename src (renameDest destination_folder src) = .notFound
          ∧ env.destExists (renameDest destination_folder src) = true) →
        (move_mr_documentation env blob_names destination_folder mr_sha).moved
          = (blob_names.filter (passesShaFilter mr_sha)).map
              (fun s => (s, renameDest destination_folder s))
        ∧ (move_mr_documentation env blob_names destination_folder mr_sha).failed
            = []) := by
  rw [move_mr_documentation_eq]
  refine ⟨?_, ?_, ?_⟩
  · intro src hmem hfil hnf hde
    unfold renameDest at hnf hde
    rw [List.mem_filterMap]
    refine ⟨src, hmem, ?_⟩
    unfold movedEntry
    rw [hfil, hnf]
    simp [hde, renameDest]
  · intro src hmem hfil hnf hde
    unfold renameDest at hnf hde
    constructor
    · rw [List.mem_filterMap]
      refine ⟨src, hmem, ?_⟩
      unfold failedEntry
      rw [hfil, hnf]
      simp [hde]
    · intro p hp hps
      rw [List.mem_filterMap] at hp
      obtain ⟨a, ha, hpa⟩ := hp
      have hfst := movedEntry_fst _ _ _ _ _ hpa
      rw [hps] at hfst
      rw [← hfst] at hpa
      unfold movedEntry at hpa
      rw [hfil, hnf] at hpa
      simp [hde] at hpa
  · intro hall
    have hall2 : ∀ src ∈ blob_names, passesShaFilter mr_sha src = true →
        env.rename src (normalizeFolder destination_folder ++ lastComponent src)
          = .notFound
        ∧ env.destExists (normalizeFolder destination_folder ++ lastComponent src)
          = true := hall
    constructor
    · exact filterMap_movedEntry_all_moved env (normalizeFolder destination_folder)
        mr_sha blob_names hall2
    · rw [List.filterMap_eq_nil_iff]
      intro src hmem
      unfold failedEntry
      by_cases hf : passesShaFilter mr_sha src
      · have hx := hall src hmem hf
        unfold renameDest at hx
        rw [hf, hx.1]
        simp [hx.2]
      · simp [hf]

/-- Concrete 40-hex commit identities and current_release object names used
by the concrete instances below. -/
def shaA : List Char := str "aaaaaaaaaaaaaaaaaaaaaaaaaaaaaaaaaaaaaaaa"

def shaB : List Char := str "bbbbbbbbbbbbbbbbbbbbbbbbbbbbbbbbbbbbbbbb"

def shaD : List Char := str "dddddddddddddddddddddddddddddddddddddddd"

def nameA : List Char := str "current_release/20250101_120000_" ++ shaA ++ str "_main.md"

def nameB : List Char := str "current_release/20250101_130000_" ++ shaB ++ str "_dev.md"

/-- A rename oracle under which the first concrete candidate fails with a
hard (non-NotFound) backing-store error and every other rename succeeds. -/
def env4 : MoveEnv :=
  ⟨fun src dst => if src = nameA then .otherError (str "rate limited") else .ok dst,
   fun _ => false, none⟩

/-- C4 counterexample: with two matching candidates whose first rename fails
with a hard backing-store error, move_mr_documentation does not abort and
raises nothing (its result type has no error outcome because the loop
catches every per-item exception): it returns the second candidate as a
partial success map and records the first as a failure entry. -/
theorem move_hard_failure_counterexample :
    move_mr_documentation env4 [nameA, nameB]
        (str "releases/v1.0/mr_docs/") [shaA, shaB]
      = ⟨[(nameB, str "releases/v1.0/mr_docs/" ++ lastComponent nameB)],
         [(nameA, str "rate limited")]⟩ := by decide

/-- C4 witness: the amended theorem applied to the concrete two-candidate
batch with one hard failure. -/
theorem move_hard_failure_witness :
    (nameA, str "rate limited")
      ∈ (move_mr_documentation env4 [nameA, nameB]
          (str "releases/v1.0/mr_docs/") [shaA, shaB]).failed :=
  (move_hard_failure_recorded_and_continues env4 [nameA, nameB]
    (str "releases/v1.0/mr_docs/") [shaA, shaB] nameA (str "rate limited")
    (by decide) (by decide) (by decide)).1

/-- A rename oracle describing a fully already-moved batch: every source is
gone and every destination exists. -/
def env7 : MoveEnv := ⟨fun _ _ => .notFound, fun _ => true, none⟩

/-- C7 witness: a second relocate call whose only candidate was already
moved reports it as succeeded, mapped to the destination name, and reports
no failures. -/
theorem relocation_idempotence_witness :
    (move_mr_documentation env7 [nameA] (str "releases/v1.0/mr_docs/") [shaA]).moved
      = [(nameA, renameDest (str "releases/v1.0/mr_docs/") nameA)]
    ∧ (move_mr_documentation env7 [nameA] (str "releases/v1.0/mr_docs/") [shaA]).failed
      = [] := by
  have h := (relocation_idempotence_and_source_missing env7 [nameA]
    (str "releases/v1.0/mr_docs/") [shaA]).2.2 (by decide)
  refine ⟨?_, h.2⟩
  rw [h.1]
  decide

/-- C2: upload_mr_documentation calls the async get_documents_sha without
await and applies the membership test to the coroutine object, so every call
that reaches the duplicate check raises a TypeError handled by none of its
except clauses (which pass it through unchanged), leaves the bucket state
unchanged (nothing is uploaded), and returns no object URI. -/
theorem upload_mr_documentation_raises_type_error (now : List Char)
    (st : GcsState) (req : MRReq) (documentation : List Char) :
    upload_mr_documentation now st req documentation
      = (st, .error (.typeError
          (str "argument of type coroutine is not iterable"))) := rfl

/-- The concrete request whose commit identity already has documentation. -/
def reqDup : MRReq := ⟨str "123", str "proj", shaA, str "main"⟩

/-- C3 (code bug): the bucket lists an object whose decoded identity equals
the requested commit identity, so per the specification the call must raise
DuplicateDocumentationError before uploading; the code instead raises the
unhandled TypeError of the missing await and never reaches its duplicate
branch. -/
theorem duplicate_present_yet_type_error :
    documentsSha [⟨nameA, str "old doc"⟩] = [shaA]
    ∧ upload_mr_documentation (str "20250102_000000") [⟨nameA, str "old doc"⟩]
        reqDup (str "new doc")
      = ([⟨nameA, str "old doc"⟩],
         .error (.typeError (str "argument of type coroutine is not iterable"))) :=
  ⟨by decide, rfl⟩

/-- C9 (amended): when the release bundle shares no identity with the
decoded current_release listing, release aggregation raises a plain generic
Exception (the release-tag message, or the empty-bucket message when the
listing decodes to nothing) and returns no corpus; exception/exceptions.py
defines no NoMatchingDocumentationError. -/
theorem aggregation_empty_overlap_generic (st : GcsState)
    (mr_in_release : List (List Char)) (release_tag bucket_name : List Char)
    (h : (mr_in_release.filter
        (fun s => (documentsSha st).contains s)).isEmpty = true) :
    get_MR_documentation st mr_in_release release_tag bucket_name
      = .error (.genericException (if (documentsSha st).isEmpty
          then str "No MR documentation found in bucket " ++ bucket_name
          else str "No documentation found for release " ++ release_tag)) := by
  simp only [get_MR_documentation]
  by_cases hg : (documentsSha st).isEmpty = true
  · rw [if_pos hg, if_pos hg]
  · rw [if_neg hg, if_pos h, if_neg hg]

/-- C9 counterexample: a store holding documentation for one identity and a
bundle holding only a different identity: aggregation raises the plain
generic Exception built from the release tag, not a typed error. -/
theorem empty_overlap_counterexample :
    get_MR_documentation [⟨nameA, str "doc"⟩] [shaB] (str "v1.0") (str "123-proj")
      = .error (.genericException
          (str "No documentation found for release " ++ str "v1.0")) := rfl

/-- C9 witness: the amended theorem applied to a bundle disjoint from the
store, with the branchless message computed out. -/
theorem aggregation_empty_overlap_witness :
    get_MR_documentation [⟨nameB, str "doc"⟩] [shaD] (str "v2.0") (str "bkt")
      = .error (.genericException
          (str "No documentation found for release " ++ str "v2.0")) := by
  have h := aggregation_empty_overlap_generic [⟨nameB, str "doc"⟩] [shaD]
    (str "v2.0") (str "bkt") (by decide)
  rw [h]
  have h2 : (documentsSha [⟨nameB, str "doc"⟩]).isEmpty = false := by decide
  rw [h2]
  rfl

theorem currentReleaseNames_append_of_not_prefixed (st : GcsState) (b : Blob)
    (h : (str "current_release/").isPrefixOf b.name = false) :
    currentReleaseNames (st ++ [b]) = currentReleaseNames st := by
  simp [currentReleaseNames, list_blobs, List.filter_append, h]

theorem release_note_not_in_current_release (now : List Char) (req : ReleaseReq) :
    (str "current_release/").isPrefixOf (releaseNotePath now req) = false := by
  have h1 : str "current_release/" = 'c' :: str "urrent_release/" := rfl
  have h2 : releaseNotePath now req
      = 'r' :: (str "eleases/" ++ req.release_tag ++ '/' ::
          (now ++ str "_release-note_" ++ req.release_tag ++ str ".md")) := rfl
  have h3 : ('c' == 'r') = false := by decide
  rw [h1, h2]
  simp [List.isPrefixOf, h3]

/-- C10: when the current_release listing contains no object names at
relocation time, upload_release_note still invokes move_mr_documentation
with the never-assigned destination_folder local, so it raises the wrapped
UnboundLocalError instead of returning the release-note URI, even though the
release-note object was already uploaded into the returned state. -/
theorem upload_release_note_unbound_destination (env : MoveEnv) (now : List Char)
    (st : GcsState) (req : ReleaseReq) (release_note : List Char)
    (mr_sha : List (List Char))
    (hls : env.listFault = none)
    (hempty : currentReleaseNames st = []) :
    upload_release_note env now st req release_note mr_sha
      = (st ++ [⟨releaseNotePath now req, release_note⟩],
         .error (.genericException (outerFailMsg req.release_tag
           (moveFailMsg unboundMsg)))) := by
  have hmove := currentReleaseNames_append_of_not_prefixed st
    ⟨releaseNotePath now req, release_note⟩
    (release_note_not_in_current_release now req)
  simp only [upload_release_note, relocationBlock, hls, hmove, hempty,
    List.isEmpty_nil, if_true]
  rfl

/-- A fault-free oracle over an empty bucket. -/
def env0 : MoveEnv := ⟨fun _ dst => .ok dst, fun _ => false, none⟩

/-- The concrete release-note request of the upload scenarios. -/
def reqRel : ReleaseReq := ⟨str "123", str "proj", str "v1.0"⟩

/-- C10 witness: the theorem applied to an empty bucket. -/
theorem upload_release_note_unbound_destination_witness :
    upload_release_note env0 (str "20250102_000000") [] reqRel (str "note") []
      = ([⟨releaseNotePath (str "20250102_000000") reqRel, str "note"⟩],
         .error (.genericException (outerFailMsg (str "v1.0")
           (moveFailMsg unboundMsg)))) :=
  upload_release_note_unbound_destination env0 (str "20250102_000000") [] reqRel
    (str "note") [] rfl (by decide)

/-- An oracle whose listing call fails with a backing-store error. -/
def envLF : MoveEnv :=
  ⟨fun _ dst => .ok dst, fun _ => false, some (str "connection reset")⟩

/-- C1 (code bug): with the release note already uploaded, a failure inside
the relocation step (here the listing call raising a backing-store error) is
wrapped and re-raised twice instead of being caught and logged: the function
raises and returns no URI, contradicting its own comment on the relocation
except clause (Do not raise here, the release note upload was successful),
whose assignment after the raise statement is unreachable. The uploaded
release note is still present in the returned state. -/
theorem upload_release_note_raises_on_relocation_failure :
    upload_release_note envLF (str "20250102_000000") [] reqRel (str "note body") []
      = ([⟨releaseNotePath (str "20250102_000000") reqRel, str "note body"⟩],
         .error (.genericException (outerFailMsg (str "v1.0")
           (moveFailMsg (str "connection reset"))))) := rfl

theorem estimate_tokens_div (t : List Char) : estimate_tokens t = t.length / 4 := by
  unfold estimate_tokens
  by_cases h : t.isEmpty = true
  · rw [if_pos h]
    rw [List.isEmpty_iff] at h
    rw [h]
    rfl
  · rw [if_neg h]

/-- C5: a bucket whose current_release folder holds exactly one artifact for
each of the distinct identities A, B, C, aggregated against a release bundle
holding B, C and an absent identity D, yields exactly the documents decoded
to B and C in listing order, with total_documents equal to two and
estimated_tokens equal to the sum of floor(len/4) over the two returned
contents. -/
theorem aggregation_completeness
    (n1 n2 n3 c1 c2 c3 A B C D tag bn : List Char)
    (hp1 : (str "current_release/").isPrefixOf n1 = true)
    (hp2 : (str "current_release/").isPrefixOf n2 = true)
    (hp3 : (str "current_release/").isPrefixOf n3 = true)
    (he1 : extract_sha_from_filename n1 = some A)
    (he2 : extract_sha_from_filename n2 = some B)
    (he3 : extract_sha_from_filename n3 = some C)
    (hAB : A ≠ B) (hAC : A ≠ C) (hBC : B ≠ C)
    (hDA : D ≠ A) (hDB : D ≠ B) (hDC : D ≠ C) :
    get_MR_documentation [⟨n1, c1⟩, ⟨n2, c2⟩, ⟨n3, c3⟩] [B, C, D] tag bn
      = .ok ⟨str "# Merge Request Documentation for Release\n\n"
               ++ formattedBody 1
                   [⟨B, lastComponent n2, c2, estimate_tokens c2⟩,
                    ⟨C, lastComponent n3, c3, estimate_tokens c3⟩],
             2, c2.length / 4 + c3.length / 4⟩ := by
  have bBA : (B == A) = false := beq_eq_false_iff_ne.mpr (Ne.symm hAB)
  have bCA : (C == A) = false := beq_eq_false_iff_ne.mpr (Ne.symm hAC)
  have bCB : (C == B) = false := beq_eq_false_iff_ne.mpr (Ne.symm hBC)
  have bAB : (A == B) = false := beq_eq_false_iff_ne.mpr hAB
  have bAC : (A == C) = false := beq_eq_false_iff_ne.mpr hAC
  have bDA : (D == A) = false := beq_eq_false_iff_ne.mpr hDA
  have bDB : (D == B) = false := beq_eq_false_iff_ne.mpr hDB
  have bDC : (D == C) = false := beq_eq_false_iff_ne.mpr hDC
  have hblobs : list_blobs (str "current_release/")
      [⟨n1, c1⟩, ⟨n2, c2⟩, ⟨n3, c3⟩] = [⟨n1, c1⟩, ⟨n2, c2⟩, ⟨n3, c3⟩] := by
    simp [list_blobs, List.filter, hp1, hp2, hp3]
  have hsha : documentsSha [⟨n1, c1⟩, ⟨n2, c2⟩, ⟨n3, c3⟩] = [A, B, C] := by
    unfold documentsSha
    rw [hblobs]
    simp only [List.foldl_cons, List.foldl_nil, he1, he2, he3]
    simp [List.contains, List.elem, bBA, bCA, bCB, Ne.symm hAC, Ne.symm hBC,
      Ne.symm hAB]
  have hcommon : List.filter (fun s => List.contains [A, B, C] s) [B, C, D]
      = [B, C] := by
    simp [List.filter, List.contains, List.elem, bBA, bCA, bCB, bDA, bDB, bDC]
  have hdocs : get_documentation_docs [⟨n1, c1⟩, ⟨n2, c2⟩, ⟨n3, c3⟩] [B, C]
      = [⟨B, lastComponent n2, c2, estimate_tokens c2⟩,
         ⟨C, lastComponent n3, c3, estimate_tokens c3⟩] := by
    unfold get_documentation_docs
    rw [hblobs]
    simp only [List.foldl_cons, List.foldl_nil, he1, he2, he3]
    simp [List.contains, List.elem, bAB, bAC, bCB, hAB, hAC]
  have hie1 : ([A, B, C] : List (List Char)).isEmpty = false := rfl
  have hie2 : ([B, C] : List (List Char)).isEmpty = false := rfl
  simp only [get_MR_documentation, hsha, hcommon, hie1, hie2, hdocs,
    Bool.false_eq_true, if_false]
  simp only [format_for_llm, List.isEmpty_cons, Bool.false_eq_true, if_false]
  simp [estimate_tokens_div]

/-- C5 witness: the aggregation theorem applied to a concrete bucket with
three artifacts and the release bundle holding two of their identities plus
an absent one. -/
theorem aggregation_completeness_witness :
    get_MR_documentation
        [⟨str "current_release/20250101_120000_cccccccccccccccccccccccccccccccccccccccc_main.md",
            str "doc for c"⟩,
         ⟨nameA, str "doc for a"⟩, ⟨nameB, str "doc for b"⟩]
        [shaA, shaB, shaD] (str "v1.0") (str "123-proj")
      = .ok ⟨str "# Merge Request Documentation for Release\n\n"
               ++ formattedBody 1
                   [⟨shaA, lastComponent nameA, str "doc for a",
                      estimate_tokens (str "doc for a")⟩,
                    ⟨shaB, lastComponent nameB, str "doc for b",
                      estimate_tokens (str "doc for b")⟩],
             2, (str "doc for a").length / 4 + (str "doc for b").length / 4⟩ :=
  aggregation_completeness
    (str "current_release/20250101_120000_cccccccccccccccccccccccccccccccccccccccc_main.md")
    nameA nameB (str "doc for c") (str "doc for a") (str "doc for b")
    (str "cccccccccccccccccccccccccccccccccccccccc") shaA shaB shaD
    (str "v1.0") (str "123-proj")
    (by decide) (by decide) (by decide) (by decide) (by decide) (by decide)
    (by decide) (by decide) (by decide) (by decide) (by decide) (by decide)

example : extract_sha_from_filename (str "") = none := by decide

example :
    extract_sha_from_filename
      (str "current_release/20250101_120000_aaaaaaaaaaaaaaaaaaaaaaaaaaaaaaaaaaaaaaaa_main.md")
      = some (str "aaaaaaaaaaaaaaaaaaaaaaaaaaaaaaaaaaaaaaaa") := by decide

example :
    extract_sha_from_filename
      (encode_blob_name (str "20250101_120000")
        (str "aaaaaaaaaaaaaaaaaaaaaaaaaaaaaaaaaaaaaaaa") (str "feature/x"))
      = none := by decide

example :
    extract_sha_from_filename (str "aaaaaaaaaaaaaaaaaaaaaaaaaaaaaaaaaaaaaaaa")
      = some (str "aaaaaaaaaaaaaaaaaaaaaaaaaaaaaaaaaaaaaaaa") := by decide

end CodeClarity
